import Mathlib

/-!
Verification of the k8s-ai-bench benchmark harness.

This file gives a shallow embedding of the benchmark execution and scoring
engine (eval.go, pkg/cluster/kind, pkg/cluster/vcluster, site/app.js) and
proves the specification claims about it.

External effects (subprocess exits, file reads, regex compilation, prompt
resolution) are modelled as explicit oracle inputs: an `Env` record carries
the outcome each external call would produce, and the embedded control flow
consumes them exactly as the Go code does.  Strings are Lean `String`s
(Go byte indices become character indices; all markers involved are ASCII).
Go `time.Duration` is nanoseconds as `Nat`; the `%v` rendering of a duration
inside a message is abstracted as the decimal value.  JavaScript numbers in
the scorer are modelled as exact rationals.
-/

namespace KBench

/-- Go `fmt` `%q` of a string: surrounding double quotes
(escaping of interior characters is abstracted away). -/
def goQuote (s : String) : String := "\x22" ++ s ++ "\x22"

/-- One entry of a Task's `expect` list (eval.go usage: `expect.Contains`). -/
structure Expectation where
  Contains : String := ""
deriving Repr, DecidableEq

/-- The task specification, as used by eval.go.  (The struct itself is
declared outside the provided sources; fields are taken from their uses in
eval.go: Setup, Cleanup, Verifier, Script, Expect, Timeout, Isolation,
Disabled.)  A script step is modelled by an opaque key that the environment
resolves to a prompt or to a resolution error. -/
structure Task where
  Setup : String := ""
  Cleanup : String := ""
  Verifier : String := ""
  Script : List String := []
  Expect : List Expectation := []
  Timeout : String := ""
  Isolation : String := ""
  Disabled : Bool := false
deriving Repr, DecidableEq

/-- Modelled from the spec: the isolation-mode constant `IsolationModeCluster`
(declared outside the provided sources; the spec calls the mode
`per-task-cluster`).  Its concrete string value is irrelevant to the claims. -/
def IsolationModeCluster : String := "cluster"

/-- One assertion-level failure record (pkg/model usage in eval.go). -/
structure Failure where
  Message : String := ""
deriving Repr, DecidableEq

/-- One agent backend/model configuration (pkg/model usage in eval.go). -/
structure LLMConfig where
  ID : String := ""
  ProviderID : String := ""
  ModelID : String := ""
  EnableToolUseShim : Bool := false
  Quiet : Bool := false
  McpClient : Bool := false
deriving Repr, DecidableEq

/-- The per-job result record (pkg/model usage in eval.go).  `Result` is the
outcome string; its zero value `""` means the outcome was never assigned. -/
structure TaskResult where
  Task : String := ""
  LLMConfig : LLMConfig := {}
  Result : String := ""
  Error : String := ""
  Failures : List Failure := []
deriving Repr, DecidableEq

/-- `result.AddFailure(format, args...)`: appends one Failure with the
formatted message (pkg/model usage in eval.go). -/
def TaskResult.AddFailure (r : TaskResult) (msg : String) : TaskResult :=
  { r with Failures := r.Failures ++ [⟨msg⟩] }

/-- The fields of EvalConfig that evaluateTask and loadTasks consult. -/
structure EvalConfig where
  ClusterProvider : String := ""
  OutputDir : String := ""
  TasksDir : String := ""
  KubeConfig : String := ""
  AgentBin : String := ""
deriving Repr, DecidableEq

/-- Oracle for every external effect one `evaluateTask` call performs, in
the order the code would perform it.  `Option String` fields are `none` for
a zero exit / success and `some msg` for the error the call returns. -/
structure Env where
  /-- `time.ParseDuration(task.Timeout)`: parsed nanoseconds or parse error. -/
  parseDuration : String → Except String Nat := fun _ => .ok 0
  /-- `filepath.Abs(taskDir)`: the absolute path or an error. -/
  abs : Except String String := .ok ""
  /-- `clusterProvider.Create(clusterName)` during runSetup. -/
  clusterCreate : Option String := none
  /-- `clusterProvider.GetKubeconfig(clusterName)` during runSetup. -/
  getKubeconfig : Option String := none
  /-- `os.WriteFile(kubeconfigPath, ...)` during runSetup. -/
  writeKubeconfig : Option String := none
  /-- exit of the task's setup script (via runCommand). -/
  setupRun : Option String := none
  /-- `step.ResolvePrompt(taskDir)` for each script step key. -/
  resolvePrompt : String → Except String String := fun s => .ok s
  /-- `cmd.Run()` of the agent binary: captured stdout or the process error. -/
  agentRun : Except String String := .ok ""
  /-- whether `taskCtx.Err() == context.DeadlineExceeded` when the agent errs. -/
  deadlineExceeded : Bool := false
  /-- `regexp.Compile(expect.Contains)`: `some msg` is a compile error. -/
  regexCompile : String → Option String := fun _ => none
  /-- `re.MatchString(lastCmdOutput)` for a pattern that compiled. -/
  regexMatches : String → String → Bool := fun _ _ => true
  /-- exit of the verifier script (via runCommand). -/
  verifierRun : Option String := none
  /-- `logBuffer.String()` at the moment the agent error is handled. -/
  logAtAgentErr : String := ""
  /-- `logBuffer.String()` at the moment the verifier failure is handled. -/
  logAtVerifierErr : String := ""

/-- Oracle for the effects of the deferred cleanup phase. -/
structure CleanupEnv where
  /-- exit of the task's cleanup script (via runCommand). -/
  cleanupScript : Option String := none
  /-- outcome of each registered teardown action, by its tag. -/
  teardown : String → Option String := fun _ => none

/-- `getLastNLines` (eval.go): the last n lines and whether it truncated. -/
def getLastNLines (s : String) (n : Nat) : String × Bool :=
  let lines := s.splitOn "\n"
  if lines.length > n then
    (String.intercalate "\n" (lines.drop (lines.length - n)), true)
  else
    (s, false)

/-- whether `pat` occurs at the head of `hay` (char-level `strings.HasPrefix`). -/
def matchesAt : List Char → List Char → Bool
  | [], _ => true
  | _ :: _, [] => false
  | p :: ps, h :: hs => p == h && matchesAt ps hs

/-- `strings.LastIndex(hay, pat)` at character granularity. -/
def lastIndexOf (hay pat : List Char) : Option Nat :=
  ((List.range (hay.length + 1)).filter (fun i => matchesAt pat (hay.drop i))).getLast?

/-- The last-command output segment (eval.go lines 380-392): everything after
the newline that follows the last `"Running:"` marker; the whole transcript
when there is no marker; empty when no newline follows the marker. -/
def extractLastCmdOutput (out : String) : String :=
  match lastIndexOf out.toList "Running:".toList with
  | none => out
  | some i =>
    let remaining := out.toList.drop i
    match remaining.indexOf? '\n' with
    | none => ""
    | some j => String.mk (remaining.drop (j + 1))

/-- The failures the stdin-feeding goroutine of runAgent records on the
result: it resolves prompts in order and, at the first resolution error,
adds one Failure and stops feeding (eval.go lines 579-592). -/
def stdinFailures (steps : List String) (resolve : String → Except String String) : List Failure :=
  match steps with
  | [] => []
  | s :: rest =>
    match resolve s with
    | .error e => [⟨"failed to resolve prompt: " ++ e⟩]
    | .ok _ => stdinFailures rest resolve

/-- The Failure one `expect` entry contributes, if any (eval.go 394-409):
nothing when `Contains` is empty; an invalid-regex Failure when the pattern
does not compile; a mismatch Failure when it compiles but does not match. -/
def expectationFailure (env : Env) (lastCmdOutput : String) (e : Expectation) : Option Failure :=
  if e.Contains = "" then none
  else
    match env.regexCompile e.Contains with
    | some cerr => some ⟨"invalid regex " ++ goQuote e.Contains ++ " in task spec: " ++ cerr⟩
    | none =>
      if env.regexMatches e.Contains lastCmdOutput then none
      else some ⟨"regex " ++ goQuote e.Contains ++ " did not match output " ++ goQuote lastCmdOutput⟩

/-- All expectation failures accumulated by evaluateTask (eval.go 376-414);
the segment extraction and matching only happen when expectations exist. -/
def expectFailures (task : Task) (env : Env) (agentOutput : String) : List Failure :=
  if 0 < task.Expect.length then
    task.Expect.filterMap (expectationFailure env (extractLastCmdOutput agentOutput))
  else []

/-- `10 * time.Minute` in nanoseconds: the default task timeout. -/
def tenMinutesNs : Nat := 600000000000

/-- The timeout used for the task: parse `task.Timeout` when set, else the
10-minute default (eval.go 292-301). -/
def timeoutOf (task : Task) (env : Env) : Except String Nat :=
  if task.Timeout ≠ "" then env.parseDuration task.Timeout else .ok tenMinutesNs

/-- The message of the synthetic timeout Failure
(`AddFailure("task timed out after %v", timeout)`). -/
def timeoutFailureMsg (timeoutNs : Nat) : String :=
  "task timed out after " ++ toString timeoutNs

/-- The error string attached when the agent process fails without the
deadline having fired (eval.go 361-372): last 3 log lines, plus a truncation
note naming the task output directory. -/
def agentErrorMsg (env : Env) (logPath : String) (e : String) : String :=
  let tail := getLastNLines env.logAtAgentErr 3
  let m := "agent encountered error: " ++ e ++ "\n---LOG---\n" ++ tail.1
  if tail.2 then m ++ "\n... (log truncated, full log at " ++ logPath ++ ")" else m

/-- The Failure message recorded when the verifier script exits non-zero
(eval.go 428-437): last 20 log lines, plus a truncation note. -/
def verifierFailureMsg (env : Env) (logPath : String) (e : String) : String :=
  let tail := getLastNLines env.logAtVerifierErr 20
  let m := "verifier script failed: " ++ e ++ "\n---LOG---\n" ++ tail.1
  if tail.2 then m ++ "\n... (log truncated, full log at " ++ logPath ++ ")" else m

/-- The isolation override in evaluateTask (eval.go 326-329): when the
configured cluster provider is `vcluster` the task is forced into
per-task-cluster isolation. -/
def effTask (cfg : EvalConfig) (task : Task) : Task :=
  if cfg.ClusterProvider = "vcluster" then { task with Isolation := IsolationModeCluster } else task

/-- The setup-script part of `TaskExecution.runSetup` (eval.go 506-516). -/
def runSetupScript (task : Task) (taskDir : String) (env : Env) : Except String Unit :=
  if task.Setup ≠ "" then
    match env.setupRun with
    | some e => .error ("running command " ++ (taskDir ++ "/" ++ task.Setup) ++ ": " ++ e)
    | none => .ok ()
  else .ok ()

/-- `TaskExecution.runSetup` (eval.go 476-519): in per-task-cluster isolation
it creates the cluster (registering its deletion as a teardown action, by
tag), fetches and writes the kubeconfig, and in every mode finally runs the
declared setup script.  Returns the error outcome together with the list of
teardown tags registered so far. -/
def runSetup (taskID : String) (task : Task) (taskDir : String) (env : Env) :
    Except String Unit × List String :=
  if task.Isolation = IsolationModeCluster then
    let clusterName := "k8s-ai-bench-" ++ taskID
    match env.clusterCreate with
    | some e => (.error ("failed to create isolated cluster " ++ goQuote clusterName ++ ": " ++ e), [])
    | none =>
      let actions := [clusterName]
      match env.getKubeconfig with
      | some e =>
        (.error ("failed to get kubeconfig for isolated cluster " ++ goQuote clusterName ++ ": " ++ e), actions)
      | none =>
        match env.writeKubeconfig with
        | some e =>
          (.error ("failed to write kubeconfig for isolated cluster " ++ goQuote clusterName ++ ": " ++ e), actions)
        | none => (runSetupScript task taskDir env, actions)
  else (runSetupScript task taskDir env, [])

/-- Result of one `runCleanup` call: whether the cleanup script ran, the
teardown actions executed in order, and the collected (joined) errors.
A script failure is logged, never part of `errs`. -/
structure CleanupResult where
  ranScript : Bool
  executed : List String
  errs : List String
deriving Repr, DecidableEq

/-- The teardown loop of `runCleanup` (eval.go 536-540): iterate the
registered actions in slice (registration) order, run each, and append its
error, continuing past failures. -/
def runTeardowns (actions : List String) (outcome : String → Option String) :
    List String × List String :=
  actions.foldl (fun acc a => (acc.1 ++ [a], acc.2 ++ (outcome a).toList)) ([], [])

/-- `TaskExecution.runCleanup` (eval.go 521-543): run the declared cleanup
script first (its failure is only printed), then every registered teardown
action, collecting all errors and joining them (`errors.Join`, here the
collected list; `[]` plays the role of a nil joined error). -/
def runCleanup (task : Task) (cenv : CleanupEnv) (actions : List String) : CleanupResult :=
  let t := runTeardowns actions cenv.teardown
  { ranScript := task.Cleanup ≠ "", executed := t.1, errs := t.2 }

/-- The verification tail of evaluateTask (eval.go 416-449), applied to the
result as it stands after the agent run: maybe add the verifier Failure,
then decide the final outcome and, on failure, append the expectation
failures. -/
def verifyPhase (task : Task) (env : Env) (logPath : String) (base : TaskResult)
    (agentOutput : String) : TaskResult :=
  let eFs := expectFailures task env agentOutput
  let result2 :=
    if task.Verifier ≠ "" then
      match env.verifierRun with
      | none => base
      | some e => base.AddFailure (verifierFailureMsg env logPath e)
    else base
  let verifierSucceeded := task.Verifier ≠ "" ∧ env.verifierRun = none
  let expectationsMet := 0 < task.Expect.length ∧ eFs = []
  if verifierSucceeded ∨ expectationsMet then
    { result2 with Result := "success" }
  else
    { result2 with Result := "fail", Failures := result2.Failures ++ eFs }

/-- The TaskResult computed by `evaluateTask` (eval.go 285-450).  The
deferred cleanup cannot modify the returned result (it is returned by value
before the deferred function runs and runCleanup never touches it), so the
result is a function of the task, config and Env alone. -/
def evalResult (cfg : EvalConfig) (taskID : String) (task0 : Task) (llm : LLMConfig)
    (env : Env) : TaskResult :=
  let result0 : TaskResult := { Task := taskID, LLMConfig := llm }
  match timeoutOf task0 env with
  | .error e => { result0 with Result := "fail", Error := "parsing timeout: " ++ e }
  | .ok timeout =>
    let task := effTask cfg task0
    let logPath := cfg.OutputDir ++ "/" ++ taskID
    match env.abs with
    | .error e => { result0 with Result := "fail", Error := e }
    | .ok taskDir =>
      match (runSetup taskID task taskDir env).1 with
      | .error e => { result0 with Error := e }
      | .ok _ =>
        let result1 := { result0 with Failures := stdinFailures task.Script env.resolvePrompt }
        match env.agentRun with
        | .error e =>
          if env.deadlineExceeded then
            { result1 with
                Result := "fail"
                Failures := result1.Failures ++ [⟨timeoutFailureMsg timeout⟩] }
          else
            { result1 with Result := "error", Error := agentErrorMsg env logPath e }
        | .ok agentOutput => verifyPhase task env logPath result1 agentOutput

/-- The observable outcome of one full `evaluateTask` call: the returned
TaskResult, whether the deferred cleanup ran at all (the defer is registered
only after the timeout parse and `filepath.Abs` succeed, eval.go 341-345),
and what the cleanup did. -/
structure EvalOutput where
  result : TaskResult
  cleanupRan : Bool
  cleanup : Option CleanupResult
deriving Repr, DecidableEq

/-- `evaluateTask` together with its deferred cleanup.  The cleanup uses a
fresh background context and its teardown list is exactly what runSetup
registered before failing or succeeding. -/
def evaluateTask (cfg : EvalConfig) (taskID : String) (task0 : Task) (llm : LLMConfig)
    (env : Env) (cenv : CleanupEnv) : EvalOutput :=
  let task := effTask cfg task0
  let ran := (timeoutOf task0 env).isOk && env.abs.isOk
  let actions :=
    match env.abs with
    | .ok taskDir => (runSetup taskID task taskDir env).2
    | .error _ => []
  { result := evalResult cfg taskID task0 llm env,
    cleanupRan := ran,
    cleanup := if ran then some (runCleanup task cenv actions) else none }

/-- `passAtK` (site/app.js 133-137), over exact rationals. -/
def passAtK (n c k : ℕ) : ℚ :=
  if n = 0 then 0 else (1 - (1 - (c : ℚ) / (n : ℚ)) ^ k) * 100

/-- Trace of one Provider.Create call: how many times the underlying
provisioning command ran, how many fixed 5-second sleeps happened, and the
final error (`none` on success). -/
structure CreateTrace where
  invocations : Nat
  sleeps : Nat
  err : Option String
deriving Repr, DecidableEq

/-- The body of the `for retry := range 3` loop shared by
kind `Provider.Create` (src/unnamed/part_000, lines 48-66) and vcluster
`Provider.Create` (vcluster.go, lines 338-363): before every attempt except
the first it sleeps 5 seconds, then runs the create command; it returns at
the first success and otherwise remembers the last error.  `pending` is the
list of remaining values of `retry`. -/
def createLoop (kindName : String) (attempt : Nat → Option String) :
    List Nat → Nat → Nat → String → CreateTrace
  | [], calls, sleeps, lastErr =>
    ⟨calls, sleeps, some ("failed to create " ++ kindName ++ " after multiple retries: " ++ lastErr)⟩
  | r :: rest, calls, sleeps, _ =>
    let sleeps1 := if 0 < r then sleeps + 1 else sleeps
    match attempt r with
    | none => ⟨calls + 1, sleeps1, none⟩
    | some e => createLoop kindName attempt rest (calls + 1) sleeps1 e

/-- `Provider.Create(name)`: three attempts, indices 0, 1, 2, exactly as
`for retry := range 3`.  `attempt i` is the outcome the environment gives
the i-th underlying create command. -/
def providerCreate (kindName : String) (attempt : Nat → Option String) : CreateTrace :=
  createLoop kindName attempt [0, 1, 2] 0 0 ""

instance {ε α : Type} [DecidableEq ε] [DecidableEq α] : DecidableEq (Except ε α) := fun a b =>
  match a, b with
  | .ok x, .ok y =>
    if h : x = y then .isTrue (by rw [h]) else .isFalse (fun hh => h (Except.ok.inj hh))
  | .error x, .error y =>
    if h : x = y then .isTrue (by rw [h]) else .isFalse (fun hh => h (Except.error.inj hh))
  | .ok _, .error _ => .isFalse (fun hh => Except.noConfusion hh)
  | .error _, .ok _ => .isFalse (fun hh => Except.noConfusion hh)

/-- One entry of `os.ReadDir(config.TasksDir)` as loadTasks sees it: its
name, whether it is a directory, and what reading then parsing
`<name>/task.yaml` would yield (outer error: `os.ReadFile`; inner error:
`yaml.Unmarshal`). -/
structure DirEntry where
  name : String
  isDir : Bool := true
  file : Except String (Except String Task) := .ok (.ok {})
deriving Repr, DecidableEq

/-- The inclusion filter of loadTasks (eval.go 248-250): skip an entry iff a
pattern was configured and it does not match the identifier. -/
def passesFilter (filter : Option (String → Bool)) (name : String) : Bool :=
  match filter with
  | some f => f name
  | none => true

/-- `filepath.Join(config.TasksDir, taskID, "task.yaml")`. -/
def taskFilePath (tasksDir name : String) : String :=
  tasksDir ++ "/" ++ name ++ "/task.yaml"

/-- The error loadTasks raises for an entry whose task file cannot be read
or parsed, `none` when the file is fine (eval.go 254-262). -/
def entryLoadError (tasksDir : String) (e : DirEntry) : Option String :=
  match e.file with
  | .error re => some ("failed to read task file " ++ taskFilePath tasksDir e.name ++ ": " ++ re)
  | .ok (.error pe) => some ("failed to parse task file " ++ taskFilePath tasksDir e.name ++ ": " ++ pe)
  | .ok (.ok _) => none

/-- whether processing this entry would abort the load (unreadable or
unparsable task file). -/
def entryBad (e : DirEntry) : Bool :=
  match e.file with
  | .ok (.ok _) => false
  | _ => true

/-- The loop of `loadTasks` (eval.go 242-271): skip non-directories, skip
names the filter rejects, abort on the first read/parse failure, skip
disabled tasks, and otherwise add the task under its directory name.  The
Go map is modelled as the association list in insertion order. -/
def loadTasksGo (tasksDir : String) (filter : Option (String → Bool)) :
    List DirEntry → List (String × Task) → Except String (List (String × Task))
  | [], acc => .ok acc
  | e :: rest, acc =>
    if e.isDir = false then loadTasksGo tasksDir filter rest acc
    else if passesFilter filter e.name = false then loadTasksGo tasksDir filter rest acc
    else
      match e.file with
      | .error re =>
        .error ("failed to read task file " ++ taskFilePath tasksDir e.name ++ ": " ++ re)
      | .ok (.error pe) =>
        .error ("failed to parse task file " ++ taskFilePath tasksDir e.name ++ ": " ++ pe)
      | .ok (.ok t) =>
        if t.Disabled then loadTasksGo tasksDir filter rest acc
        else loadTasksGo tasksDir filter rest (acc ++ [(e.name, t)])

/-- `loadTasks` (eval.go 225-274), over the directory listing it reads. -/
def loadTasks (tasksDir : String) (filter : Option (String → Bool))
    (entries : List DirEntry) : Except String (List (String × Task)) :=
  loadTasksGo tasksDir filter entries []

/-- An entry loadTasks skips silently: not a directory, rejected by the
filter, or a well-formed specification marked disabled. -/
def entrySkipped (filter : Option (String → Bool)) (e : DirEntry) : Prop :=
  e.isDir = false ∨ passesFilter filter e.name = false ∨
    ∃ t, e.file = .ok (.ok t) ∧ t.Disabled = true

theorem bool_ne_false {b : Bool} (h : ¬(b = false)) : b = true := by
  cases b
  · exact absurd rfl h
  · rfl

/-- C4: for 0 ≤ c ≤ n and k ≥ 1, passAtK lies in [0, 100]; it is 0 at
n = 0 and at c = 0, is 100 at c = n > 0, and for n > 0 equals
(1 − (1 − c/n)^k)·100. -/
theorem passAtK_bounds (n c k : ℕ) (hcn : c ≤ n) (hk : 1 ≤ k) :
    0 ≤ passAtK n c k ∧ passAtK n c k ≤ 100 ∧
    passAtK n 0 k = 0 ∧ passAtK 0 0 k = 0 ∧
    (0 < n → passAtK n n k = 100) ∧
    (n ≠ 0 → passAtK n c k = (1 - (1 - (c : ℚ) / (n : ℚ)) ^ k) * 100) := by
  rcases Nat.eq_zero_or_pos n with h0 | hpos
  · subst h0
    have hc : c = 0 := Nat.le_zero.mp hcn
    subst hc
    simp [passAtK]
  · have hn0 : n ≠ 0 := hpos.ne'
    have hnq : (0 : ℚ) < (n : ℚ) := by exact_mod_cast hpos
    have hp0 : (0 : ℚ) ≤ (c : ℚ) / n := by positivity
    have hp1 : (c : ℚ) / n ≤ 1 := by
      rw [div_le_one hnq]
      exact_mod_cast hcn
    have hq0 : (0 : ℚ) ≤ 1 - (c : ℚ) / n := by linarith
    have hq1 : (1 : ℚ) - (c : ℚ) / n ≤ 1 := by linarith
    have hpow0 : (0 : ℚ) ≤ (1 - (c : ℚ) / n) ^ k := pow_nonneg hq0 k
    have hpow1 : (1 - (c : ℚ) / n) ^ k ≤ 1 := pow_le_one₀ hq0 hq1
    refine ⟨?_, ?_, ?_, ?_, ?_, ?_⟩
    · simp only [passAtK, if_neg hn0]
      nlinarith
    · simp only [passAtK, if_neg hn0]
      nlinarith
    · simp [passAtK, hn0]
    · simp [passAtK]
    · intro _
      have hd : (n : ℚ) / n = 1 := div_self hnq.ne'
      have hkne : k ≠ 0 := by omega
      simp [passAtK, hn0, hd, zero_pow hkne]
    · intro _
      simp [passAtK, hn0]

/-- C4 witness at n = 5, c = 3, k = 2. -/
theorem passAtK_bounds_witness :
    0 ≤ passAtK 5 3 2 ∧ passAtK 5 3 2 ≤ 100 ∧
    passAtK 5 0 2 = 0 ∧ passAtK 0 0 2 = 0 ∧
    (0 < 5 → passAtK 5 5 2 = 100) ∧
    (5 ≠ 0 → passAtK 5 3 2 = (1 - (1 - (3 : ℚ) / ((5 : ℕ) : ℚ)) ^ 2) * 100) :=
  passAtK_bounds 5 3 2 (by norm_num) (by norm_num)

/-- C7: Provider.Create makes at most 3 attempts with a sleep before every
attempt but the first; it returns success as soon as an attempt succeeds
(i invocations and i − 1 sleeps when attempt i is the first success), and
after 3 failures returns an error wrapping the last underlying error. -/
theorem providerCreate_retry (kindName : String) (attempt : Nat → Option String) :
    (providerCreate kindName attempt).invocations ≤ 3 ∧
    (attempt 0 = none → providerCreate kindName attempt = ⟨1, 0, none⟩) ∧
    (∀ e0, attempt 0 = some e0 → attempt 1 = none →
      providerCreate kindName attempt = ⟨2, 1, none⟩) ∧
    (∀ e0 e1, attempt 0 = some e0 → attempt 1 = some e1 → attempt 2 = none →
      providerCreate kindName attempt = ⟨3, 2, none⟩) ∧
    (∀ e0 e1 e2, attempt 0 = some e0 → attempt 1 = some e1 → attempt 2 = some e2 →
      providerCreate kindName attempt =
        ⟨3, 2, some ("failed to create " ++ kindName ++ " after multiple retries: " ++ e2)⟩) := by
  cases h0 : attempt 0 <;> cases h1 : attempt 1 <;> cases h2 : attempt 2 <;>
    refine ⟨?_, ?_, ?_, ?_, ?_⟩ <;>
      simp_all [providerCreate, createLoop]

/-- C7 witness: two failures then success on the third attempt gives 3
invocations, 2 sleeps and no error (the spec's retry scenario). -/
theorem providerCreate_retry_witness :
    providerCreate "kind cluster" (fun n => if n < 2 then some "boom" else none) = ⟨3, 2, none⟩ :=
  (providerCreate_retry "kind cluster" (fun n => if n < 2 then some "boom" else none)).2.2.2.1
    "boom" "boom" rfl rfl rfl

theorem runTeardowns_foldl (f : String → Option String) (l : List String) :
    ∀ acc : List String × List String,
      l.foldl (fun acc a => (acc.1 ++ [a], acc.2 ++ (f a).toList)) acc =
        (acc.1 ++ l, acc.2 ++ l.filterMap f) := by
  induction l with
  | nil => intro acc; simp
  | cons a l ih =>
    intro acc
    simp only [List.foldl_cons, ih]
    cases h : f a <;> simp [List.filterMap_cons, h, Option.toList]

theorem runTeardowns_eq (actions : List String) (f : String → Option String) :
    runTeardowns actions f = (actions, actions.filterMap f) := by
  simpa [runTeardowns] using runTeardowns_foldl f actions ([], [])

/-- C6 counterexample: with two registered teardown actions, runCleanup runs
them in registration order, not in reverse registration order. -/
theorem runCleanup_order_counterexample :
    (runCleanup {} {} ["a", "b"]).executed = ["a", "b"] ∧
    (runCleanup {} {} ["a", "b"]).executed ≠ (["a", "b"] : List String).reverse := by
  constructor
  · simp [runCleanup, runTeardowns_eq]
  · simp [runCleanup, runTeardowns_eq]

/-- C6 (amended): runCleanup runs the declared cleanup script first (its
failure is logged, never part of the joined errors), then every registered
teardown action in registration (not reverse) order, collecting every error
without stopping at the first. -/
theorem runCleanup_spec (task : Task) (cenv : CleanupEnv) (actions : List String) :
    ((runCleanup task cenv actions).ranScript = true ↔ task.Cleanup ≠ "") ∧
    (runCleanup task cenv actions).executed = actions ∧
    (runCleanup task cenv actions).errs = actions.filterMap cenv.teardown ∧
    (∀ cs, runCleanup task { cenv with cleanupScript := cs } actions =
      runCleanup task cenv actions) := by
  refine ⟨?_, ?_, ?_, ?_⟩ <;> simp [runCleanup, runTeardowns_eq]

/-- C8: the TaskResult recorded by evaluateTask does not depend on anything
the deferred cleanup does, and once the state machine is entered (timeout
parsed, task directory resolved) the cleanup always runs. -/
theorem evaluateTask_cleanup_frame (cfg : EvalConfig) (taskID : String) (task0 : Task)
    (llm : LLMConfig) (env : Env) (c1 c2 : CleanupEnv) :
    (evaluateTask cfg taskID task0 llm env c1).result =
      (evaluateTask cfg taskID task0 llm env c2).result ∧
    ((timeoutOf task0 env).isOk = true → env.abs.isOk = true →
      (evaluateTask cfg taskID task0 llm env c1).cleanupRan = true) := by
  constructor
  · rfl
  · intro h1 h2
    simp [evaluateTask, h1, h2]

/-- C8 witness: a teardown failure leaves the result untouched and the
cleanup ran. -/
theorem evaluateTask_cleanup_frame_witness :
    (evaluateTask {} "t" {} {} {} { teardown := fun _ => some "boom" }).result =
      (evaluateTask {} "t" {} {} {} {}).result ∧
    (evaluateTask {} "t" {} {} {} { teardown := fun _ => some "boom" }).cleanupRan = true :=
  ⟨(evaluateTask_cleanup_frame {} "t" {} {} {} { teardown := fun _ => some "boom" } {}).1,
    (evaluateTask_cleanup_frame {} "t" {} {} {} { teardown := fun _ => some "boom" } {}).2
      rfl rfl⟩

/-- C2 (code bug): when the setup script fails, evaluateTask returns a
TaskResult whose Result field is still the zero value "", which is outside
{success, fail, error} (eval.go 347-351 sets result.Error but never
result.Result). -/
theorem evaluateTask_setup_failure_outcome_unset :
    (evaluateTask {} "t" { Setup := "setup.sh" } {}
        { setupRun := some "exit status 1" } {}).result.Result = "" ∧
    (evaluateTask {} "t" { Setup := "setup.sh" } {}
        { setupRun := some "exit status 1" } {}).result.Result ∉
      (["success", "fail", "error"] : List String) := by
  constructor
  · rfl
  · decide

/-- C3 (code bug): a failing setup script stops the state machine before the
agent run (an agent crash outcome is never consulted) and records the setup
error, but the outcome is left unset instead of being set to `error`. -/
theorem evaluateTask_setup_failure_not_error :
    (evaluateTask {} "t2" { Setup := "setup.sh" } {}
        { abs := .ok "/tasks/t2", setupRun := some "exit status 2" } {}).result.Error =
      "running command /tasks/t2/setup.sh: exit status 2" ∧
    (evaluateTask {} "t2" { Setup := "setup.sh" } {}
        { abs := .ok "/tasks/t2", setupRun := some "exit status 2" } {}).result.Result ≠ "error" ∧
    (evaluateTask {} "t2" { Setup := "setup.sh" } {}
        { abs := .ok "/tasks/t2", setupRun := some "exit status 2",
          agentRun := .error "agent crashed" } {}).result =
      (evaluateTask {} "t2" { Setup := "setup.sh" } {}
        { abs := .ok "/tasks/t2", setupRun := some "exit status 2" } {}).result := by
  refine ⟨rfl, ?_, rfl⟩
  decide

/-- C5 counterexample: when a prompt fails to resolve and the deadline then
fires during the agent run, the result is `fail` but carries two Failures,
not the single synthetic timeout Failure the claim states. -/
theorem evaluateTask_timeout_two_failures :
    (evaluateTask {} "t" { Script := ["step1"], Timeout := "1s" } {}
        { parseDuration := fun _ => .ok 1000000000,
          resolvePrompt := fun _ => .error "no such file",
          agentRun := .error "signal: killed",
          deadlineExceeded := true } {}).result.Result = "fail" ∧
    ((evaluateTask {} "t" { Script := ["step1"], Timeout := "1s" } {}
        { parseDuration := fun _ => .ok 1000000000,
          resolvePrompt := fun _ => .error "no such file",
          agentRun := .error "signal: killed",
          deadlineExceeded := true } {}).result.Failures).length = 2 := by
  constructor
  · rfl
  · rfl

/-- C5 (amended): if the agent process fails and the deadline has fired, the
result is `fail` and one synthetic timeout Failure is appended after any
failures recorded during the agent phase — it is the only Failure exactly
when none were; if the deadline has not fired, the result is `error` with
the truncated last-3-lines log excerpt attached to the error message. -/
theorem evaluateTask_agent_error (cfg : EvalConfig) (taskID : String) (task0 : Task)
    (llm : LLMConfig) (env : Env) (cenv : CleanupEnv) (T : Nat) (dir : String) (e : String)
    (hto : timeoutOf task0 env = .ok T)
    (habs : env.abs = .ok dir)
    (hsetup : (runSetup taskID (effTask cfg task0) dir env).1 = .ok ())
    (hagent : env.agentRun = .error e) :
    (env.deadlineExceeded = true →
      (evaluateTask cfg taskID task0 llm env cenv).result.Result = "fail" ∧
      (evaluateTask cfg taskID task0 llm env cenv).result.Failures =
        stdinFailures (effTask cfg task0).Script env.resolvePrompt ++
          [⟨timeoutFailureMsg T⟩] ∧
      (stdinFailures (effTask cfg task0).Script env.resolvePrompt = [] →
        (evaluateTask cfg taskID task0 llm env cenv).result.Failures =
          [⟨timeoutFailureMsg T⟩])) ∧
    (env.deadlineExceeded = false →
      (evaluateTask cfg taskID task0 llm env cenv).result.Result = "error" ∧
      (evaluateTask cfg taskID task0 llm env cenv).result.Error =
        agentErrorMsg env (cfg.OutputDir ++ "/" ++ taskID) e ∧
      (evaluateTask cfg taskID task0 llm env cenv).result.Failures =
        stdinFailures (effTask cfg task0).Script env.resolvePrompt) := by
  constructor
  · intro hd
    have hfs : (evaluateTask cfg taskID task0 llm env cenv).result.Failures =
        stdinFailures (effTask cfg task0).Script env.resolvePrompt ++
          [⟨timeoutFailureMsg T⟩] := by
      simp [evaluateTask, evalResult, hto, habs, hsetup, hagent, hd]
    refine ⟨?_, hfs, fun hnil => by rw [hfs, hnil]; simp⟩
    simp [evaluateTask, evalResult, hto, habs, hsetup, hagent, hd]
  · intro hd
    refine ⟨?_, ?_, ?_⟩ <;> simp [evaluateTask, evalResult, hto, habs, hsetup, hagent, hd]

/-- C5 (amended) witness: clean prompts plus a deadline-killed agent gives
`fail` with exactly the synthetic timeout Failure. -/
theorem evaluateTask_agent_error_witness :
    (evaluateTask {} "t" { Timeout := "1s" } {}
        { parseDuration := fun _ => .ok 1000000000,
          agentRun := .error "signal: killed",
          deadlineExceeded := true } {}).result.Result = "fail" ∧
    (evaluateTask {} "t" { Timeout := "1s" } {}
        { parseDuration := fun _ => .ok 1000000000,
          agentRun := .error "signal: killed",
          deadlineExceeded := true } {}).result.Failures =
      [⟨timeoutFailureMsg 1000000000⟩] := by
  have h := (evaluateTask_agent_error {} "t" { Timeout := "1s" } {}
      { parseDuration := fun _ => .ok 1000000000,
        agentRun := .error "signal: killed",
        deadlineExceeded := true } {} 1000000000 "" "signal: killed"
      rfl rfl rfl rfl).1 rfl
  exact ⟨h.1, h.2.2 rfl⟩

theorem evalResult_verify (cfg : EvalConfig) (taskID : String) (task0 : Task) (llm : LLMConfig)
    (env : Env) (cenv : CleanupEnv) (T : Nat) (dir : String) (out : String)
    (hto : timeoutOf task0 env = .ok T)
    (habs : env.abs = .ok dir)
    (hsetup : (runSetup taskID (effTask cfg task0) dir env).1 = .ok ())
    (hagent : env.agentRun = .ok out) :
    (evaluateTask cfg taskID task0 llm env cenv).result =
      verifyPhase (effTask cfg task0) env (cfg.OutputDir ++ "/" ++ taskID)
        { Task := taskID, LLMConfig := llm,
          Failures := stdinFailures (effTask cfg task0).Script env.resolvePrompt } out := by
  simp [evaluateTask, evalResult, hto, habs, hsetup, hagent]

theorem verifyPhase_success_iff (task : Task) (env : Env) (logPath : String)
    (base : TaskResult) (out : String) :
    (verifyPhase task env logPath base out).Result = "success" ↔
      (task.Verifier ≠ "" ∧ env.verifierRun = none) ∨
      (task.Expect ≠ [] ∧ expectFailures task env out = []) := by
  have hlen : (0 < task.Expect.length) ↔ task.Expect ≠ [] := List.length_pos
  by_cases h : (task.Verifier ≠ "" ∧ env.verifierRun = none) ∨
      (0 < task.Expect.length ∧ expectFailures task env out = [])
  · simp only [verifyPhase]
    rw [if_pos h]
    constructor
    · intro _
      rcases h with h | h
      · exact Or.inl h
      · exact Or.inr ⟨hlen.mp h.1, h.2⟩
    · intro _
      rfl
  · simp only [verifyPhase]
    rw [if_neg h]
    constructor
    · intro hcontra
      simp at hcontra
    · intro hr
      exfalso
      rcases hr with hv | he
      · exact h (Or.inl hv)
      · exact h (Or.inr ⟨hlen.mpr he.1, he.2⟩)

theorem verifyPhase_fail (task : Task) (env : Env) (logPath : String)
    (base : TaskResult) (out : String)
    (h : ¬((task.Verifier ≠ "" ∧ env.verifierRun = none) ∨
        (0 < task.Expect.length ∧ expectFailures task env out = []))) :
    (verifyPhase task env logPath base out).Result = "fail" ∧
    ∀ f ∈ expectFailures task env out, f ∈ (verifyPhase task env logPath base out).Failures := by
  simp only [verifyPhase]
  rw [if_neg h]
  refine ⟨rfl, fun f hf => ?_⟩
  exact List.mem_append_right _ hf

/-- C1: when the timeout parses, the task directory resolves, setup
succeeds and the agent run completes without error, the outcome is
`success` iff the declared verifier exited zero or expectations were
declared and all matched; in every other such case the outcome is `fail`
and every accumulated expectation Failure is on the result. -/
theorem evaluateTask_outcome (cfg : EvalConfig) (taskID : String) (task0 : Task)
    (llm : LLMConfig) (env : Env) (cenv : CleanupEnv) (T : Nat) (dir : String) (out : String)
    (hto : timeoutOf task0 env = .ok T)
    (habs : env.abs = .ok dir)
    (hsetup : (runSetup taskID (effTask cfg task0) dir env).1 = .ok ())
    (hagent : env.agentRun = .ok out) :
    ((evaluateTask cfg taskID task0 llm env cenv).result.Result = "success" ↔
      ((effTask cfg task0).Verifier ≠ "" ∧ env.verifierRun = none) ∨
      ((effTask cfg task0).Expect ≠ [] ∧ expectFailures (effTask cfg task0) env out = [])) ∧
    ((evaluateTask cfg taskID task0 llm env cenv).result.Result ≠ "success" →
      (evaluateTask cfg taskID task0 llm env cenv).result.Result = "fail" ∧
      ∀ f ∈ expectFailures (effTask cfg task0) env out,
        f ∈ (evaluateTask cfg taskID task0 llm env cenv).result.Failures) := by
  have hred := evalResult_verify cfg taskID task0 llm env cenv T dir out hto habs hsetup hagent
  rw [hred]
  refine ⟨verifyPhase_success_iff _ _ _ _ _, fun hne => ?_⟩
  have hlen : (0 < (effTask cfg task0).Expect.length) ↔ (effTask cfg task0).Expect ≠ [] :=
    List.length_pos
  by_cases h : ((effTask cfg task0).Verifier ≠ "" ∧ env.verifierRun = none) ∨
      (0 < (effTask cfg task0).Expect.length ∧ expectFailures (effTask cfg task0) env out = [])
  · exfalso
    apply hne
    rw [verifyPhase_success_iff]
    rcases h with h | h
    · exact Or.inl h
    · exact Or.inr ⟨hlen.mp h.1, h.2⟩
  · exact verifyPhase_fail _ _ _ _ _ h

/-- C1 witness: one declared expectation that matches, no verifier: the
outcome is `success`. -/
theorem evaluateTask_outcome_witness :
    ((evaluateTask {} "t" { Expect := [⟨"Scaled.*to 3"⟩] } {} {} {}).result.Result = "success" ↔
      ((effTask {} { Expect := [⟨"Scaled.*to 3"⟩] }).Verifier ≠ "" ∧
        ({} : Env).verifierRun = none) ∨
      ((effTask {} { Expect := [⟨"Scaled.*to 3"⟩] }).Expect ≠ [] ∧
        expectFailures (effTask {} { Expect := [⟨"Scaled.*to 3"⟩] }) {} "" = [])) ∧
    ((evaluateTask {} "t" { Expect := [⟨"Scaled.*to 3"⟩] } {} {} {}).result.Result ≠ "success" →
      (evaluateTask {} "t" { Expect := [⟨"Scaled.*to 3"⟩] } {} {} {}).result.Result = "fail" ∧
      ∀ f ∈ expectFailures (effTask {} { Expect := [⟨"Scaled.*to 3"⟩] }) {} "",
        f ∈ (evaluateTask {} "t" { Expect := [⟨"Scaled.*to 3"⟩] } {} {} {}).result.Failures) :=
  evaluateTask_outcome {} "t" { Expect := [⟨"Scaled.*to 3"⟩] } {} {} {}
    tenMinutesNs "" "" rfl rfl rfl rfl

/-- C10: expectations declared and all matched, verifier declared and
failing: the outcome is `success` while the verifier Failure sits on the
result, so a success result can carry a non-empty Failures list. -/
theorem evaluateTask_success_with_failures (cfg : EvalConfig) (taskID : String) (task0 : Task)
    (llm : LLMConfig) (env : Env) (cenv : CleanupEnv) (T : Nat) (dir : String)
    (out : String) (e : String)
    (hto : timeoutOf task0 env = .ok T)
    (habs : env.abs = .ok dir)
    (hsetup : (runSetup taskID (effTask cfg task0) dir env).1 = .ok ())
    (hagent : env.agentRun = .ok out)
    (hexp : (effTask cfg task0).Expect ≠ [])
    (hmatch : expectFailures (effTask cfg task0) env out = [])
    (hver : (effTask cfg task0).Verifier ≠ "")
    (hvfail : env.verifierRun = some e) :
    (evaluateTask cfg taskID task0 llm env cenv).result.Result = "success" ∧
    Failure.mk (verifierFailureMsg env (cfg.OutputDir ++ "/" ++ taskID) e) ∈
      (evaluateTask cfg taskID task0 llm env cenv).result.Failures ∧
    (evaluateTask cfg taskID task0 llm env cenv).result.Failures ≠ [] := by
  have hred := evalResult_verify cfg taskID task0 llm env cenv T dir out hto habs hsetup hagent
  rw [hred]
  have hcond : ((effTask cfg task0).Verifier ≠ "" ∧ env.verifierRun = none) ∨
      (0 < (effTask cfg task0).Expect.length ∧
        expectFailures (effTask cfg task0) env out = []) :=
    Or.inr ⟨List.length_pos.mpr hexp, hmatch⟩
  simp only [verifyPhase]
  rw [if_pos hcond, if_pos hver, hvfail]
  refine ⟨rfl, ?_, ?_⟩ <;> simp [TaskResult.AddFailure]

/-- C10 witness: a matching expectation plus a failing verifier gives
`success` with the verifier Failure on the result. -/
theorem evaluateTask_success_with_failures_witness :
    (evaluateTask {} "t" { Expect := [⟨"ok"⟩], Verifier := "verify.sh" } {}
        { verifierRun := some "exit status 1" } {}).result.Result = "success" ∧
    Failure.mk (verifierFailureMsg { verifierRun := some "exit status 1" } ("/" ++ "t")
        "exit status 1") ∈
      (evaluateTask {} "t" { Expect := [⟨"ok"⟩], Verifier := "verify.sh" } {}
        { verifierRun := some "exit status 1" } {}).result.Failures ∧
    (evaluateTask {} "t" { Expect := [⟨"ok"⟩], Verifier := "verify.sh" } {}
        { verifierRun := some "exit status 1" } {}).result.Failures ≠ [] :=
  evaluateTask_success_with_failures {} "t" { Expect := [⟨"ok"⟩], Verifier := "verify.sh" } {}
    { verifierRun := some "exit status 1" } {} tenMinutesNs "" "" "exit status 1"
    rfl rfl rfl rfl (by decide) rfl (by decide) rfl

theorem loadTasksGo_error (tasksDir : String) (filter : Option (String → Bool)) :
    ∀ (pre : List DirEntry) (e : DirEntry) (post : List DirEntry)
      (acc : List (String × Task)) (m : String),
      (∀ e' ∈ pre, ¬(e'.isDir = true ∧ passesFilter filter e'.name = true ∧
        entryBad e' = true)) →
      e.isDir = true → passesFilter filter e.name = true →
      entryLoadError tasksDir e = some m →
      loadTasksGo tasksDir filter (pre ++ e :: post) acc = .error m := by
  intro pre
  induction pre with
  | nil =>
    intro e post acc m _ hdir hpass herr
    simp only [List.nil_append, loadTasksGo, hdir, hpass]
    cases hf : e.file with
    | error re =>
      simp only [entryLoadError, hf, Option.some.injEq] at herr
      simp [herr]
    | ok inner =>
      cases inner with
      | error pe =>
        simp only [entryLoadError, hf, Option.some.injEq] at herr
        simp [herr]
      | ok t =>
        exfalso
        simp [entryLoadError, hf] at herr
  | cons p pre ih =>
    intro e post acc m hpre hdir hpass herr
    have hp := hpre p (List.mem_cons_self p pre)
    have hrest : ∀ e' ∈ pre, ¬(e'.isDir = true ∧ passesFilter filter e'.name = true ∧
        entryBad e' = true) := fun e' he' => hpre e' (List.mem_cons_of_mem p he')
    simp only [List.cons_append, loadTasksGo]
    by_cases hd : p.isDir = false
    · rw [if_pos hd]
      exact ih e post acc m hrest hdir hpass herr
    · rw [if_neg hd]
      by_cases hpf : passesFilter filter p.name = false
      · rw [if_pos hpf]
        exact ih e post acc m hrest hdir hpass herr
      · rw [if_neg hpf]
        have hdir' : p.isDir = true := bool_ne_false hd
        have hpf' : passesFilter filter p.name = true := bool_ne_false hpf
        cases hf : p.file with
        | error re =>
          exfalso
          exact hp ⟨hdir', hpf', by simp [entryBad, hf]⟩
        | ok inner =>
          cases inner with
          | error pe =>
            exfalso
            exact hp ⟨hdir', hpf', by simp [entryBad, hf]⟩
          | ok t =>
            simp only
            by_cases hdis : t.Disabled
            · rw [if_pos hdis]
              exact ih e post acc m hrest hdir hpass herr
            · rw [if_neg hdis]
              exact ih e post _ m hrest hdir hpass herr

theorem loadTasksGo_mem (tasksDir : String) (filter : Option (String → Bool)) :
    ∀ (entries : List DirEntry) (acc m : List (String × Task)),
      loadTasksGo tasksDir filter entries acc = .ok m →
      ∀ n, n ∈ m.map Prod.fst →
        n ∈ acc.map Prod.fst ∨
        ∃ e, e ∈ entries ∧ e.name = n ∧ e.isDir = true ∧
          passesFilter filter e.name = true ∧
          ∃ t, e.file = .ok (.ok t) ∧ t.Disabled = false := by
  intro entries
  induction entries with
  | nil =>
    intro acc m hok n hn
    simp only [loadTasksGo, Except.ok.injEq] at hok
    subst hok
    exact Or.inl hn
  | cons e rest ih =>
    intro acc m hok n hn
    simp only [loadTasksGo] at hok
    by_cases hd : e.isDir = false
    · rw [if_pos hd] at hok
      rcases ih acc m hok n hn with h | ⟨e', he', hr⟩
      · exact Or.inl h
      · exact Or.inr ⟨e', List.mem_cons_of_mem _ he', hr⟩
    · rw [if_neg hd] at hok
      by_cases hpf : passesFilter filter e.name = false
      · rw [if_pos hpf] at hok
        rcases ih acc m hok n hn with h | ⟨e', he', hr⟩
        · exact Or.inl h
        · exact Or.inr ⟨e', List.mem_cons_of_mem _ he', hr⟩
      · rw [if_neg hpf] at hok
        cases hf : e.file with
        | error re => simp [hf] at hok
        | ok inner =>
          cases inner with
          | error pe => simp [hf] at hok
          | ok t =>
            simp only [hf] at hok
            by_cases hdis : t.Disabled
            · rw [if_pos hdis] at hok
              rcases ih acc m hok n hn with h | ⟨e', he', hr⟩
              · exact Or.inl h
              · exact Or.inr ⟨e', List.mem_cons_of_mem _ he', hr⟩
            · rw [if_neg hdis] at hok
              rcases ih _ m hok n hn with h | ⟨e', he', hr⟩
              · rw [List.map_append] at h
                rcases List.mem_append.mp h with h | h
                · exact Or.inl h
                · have hne : n = e.name := by simpa using h
                  refine Or.inr ⟨e, List.mem_cons_self e rest, hne.symm,
                    bool_ne_false hd, bool_ne_false hpf, t, hf, ?_⟩
                  simpa using hdis
              · exact Or.inr ⟨e', List.mem_cons_of_mem _ he', hr⟩

/-- C9: loadTasks aborts on the first readable-or-parsable failure among the
entries it actually processes, returning the error that wraps the offending
path and the underlying error (and hence no mapping at all); and every
entry skipped for not being a directory, failing the filter, or being
disabled is absent from a successfully returned mapping. -/
theorem loadTasks_spec (tasksDir : String) (filter : Option (String → Bool))
    (entries : List DirEntry) :
    (∀ pre e post m, entries = pre ++ e :: post →
      (∀ e' ∈ pre, ¬(e'.isDir = true ∧ passesFilter filter e'.name = true ∧
        entryBad e' = true)) →
      e.isDir = true → passesFilter filter e.name = true →
      entryLoadError tasksDir e = some m →
      loadTasks tasksDir filter entries = .error m) ∧
    (∀ m, loadTasks tasksDir filter entries = .ok m →
      (entries.map DirEntry.name).Nodup →
      ∀ e ∈ entries, entrySkipped filter e → e.name ∉ m.map Prod.fst) := by
  constructor
  · intro pre e post m hsplit hpre hdir hpass herr
    rw [hsplit]
    exact loadTasksGo_error tasksDir filter pre e post [] m hpre hdir hpass herr
  · intro m hok hnodup e he hskip hmem
    rcases loadTasksGo_mem tasksDir filter entries [] m hok e.name hmem with
      h | ⟨e', he', hname, hdir', hpass', t', hf', hdis'⟩
    · simp at h
    · have heq : e' = e := List.inj_on_of_nodup_map hnodup he' he hname
      subst heq
      rcases hskip with h1 | h1 | ⟨t, ht, htd⟩
      · rw [hdir'] at h1
        exact Bool.noConfusion h1
      · rw [hpass'] at h1
        exact Bool.noConfusion h1
      · rw [hf'] at ht
        have : t' = t := Except.ok.inj (Except.ok.inj ht)
        subst this
        rw [hdis'] at htd
        exact Bool.noConfusion htd

/-- C9 witness: an unreadable task file aborts the load with the wrapped
path, and a disabled task is absent from a successful load. -/
theorem loadTasks_spec_witness :
    loadTasks "tasks" none [⟨"bad", true, .error "permission denied"⟩] =
      .error "failed to read task file tasks/bad/task.yaml: permission denied" ∧
    ("off" : String) ∉
      (([] : List (String × Task)).map Prod.fst) :=
  ⟨(loadTasks_spec "tasks" none [⟨"bad", true, .error "permission denied"⟩]).1
      [] ⟨"bad", true, .error "permission denied"⟩ [] _ rfl (by simp) rfl rfl rfl,
    (loadTasks_spec "tasks" none [⟨"off", true, .ok (.ok { Disabled := true })⟩]).2
      [] rfl (by simp) ⟨"off", true, .ok (.ok { Disabled := true })⟩ (by simp)
      (Or.inr (Or.inr ⟨{ Disabled := true }, rfl, rfl⟩))⟩

end KBench
